import Mathlib

/-!
Verification of the snap-repo template downloader against its design
specification.  The definitions below are a shallow embedding of the
TypeScript sources: `src/lib/utils/index.ts` (the `download` function and
`parseGitURI`), `src/lib/providers.ts` and the registry module (the JSON
fetch path), and the orchestrator `downloadTemplate`.  Strings are modelled
as Lean `String`/`List Char`, the filesystem as an association list from
paths to nodes, and the network as an explicit oracle recording which
requests (HEAD / GET) a run performs.
-/

/-! ## URI parser (`parseGitURI`, `src/lib/utils/index.ts`) -/

/-- Character class `[\w.-]` of the source regexes (JS `\w` is ASCII letters,
digits and underscore).  Used by `inputRegex` in `src/lib/utils/index.ts` and
by `sourceProtoRe` in the orchestrator (whose class `[\w-.]` is the same
set). -/
def isWordDotDash (c : Char) : Bool :=
  c.isAlphanum || c = '_' || c = '.' || c = '-'

/-- Character class `[\w./@-]` of the `ref` group of `inputRegex`. -/
def isRefChar (c : Char) : Bool :=
  isWordDotDash c || c = '/' || c = '@'

/-- Result of `parseGitURI`.  The TS `GitInfo` interface also declares a
`provider` field, but `parseGitURI` never sets it; the function returns only
`repo` (possibly `undefined` when the regex does not match, modelled as
`none`), `subdir` and `ref`. -/
structure GitInfo where
  repo : Option String
  subdir : String
  ref : String
deriving Repr, DecidableEq

/-- The `repo` group `[\w.-]+\/[\w.-]+` of `inputRegex`, matched at the start
of the input (the regex is anchored with `^`).  The character class excludes
`/`, so the regex engine's greedy matching never needs to backtrack: each
segment is exactly the maximal run of class characters, and the run must be
followed by a literal `/` for the first segment.  Returns the characters of
the group together with the remaining input, or `none` when the group (and
hence the whole regex) fails to match. -/
def matchRepo (cs : List Char) : Option (List Char × List Char) :=
  let seg1 := cs.takeWhile isWordDotDash
  match cs.dropWhile isWordDotDash with
  | '/' :: rest2 =>
    let seg2 := rest2.takeWhile isWordDotDash
    if seg1.isEmpty || seg2.isEmpty then none
    else some (seg1 ++ '/' :: seg2, rest2.dropWhile isWordDotDash)
  | _ => none

/-- Shallow embedding of `parseGitURI` from `src/lib/utils/index.ts`.  It
evaluates `input.match(inputRegex)?.groups || {}` and applies the defaults:
`subdir` falls back to `"/"` (the group `[^#]+` is optional and never empty
when matched), and `ref` is the matched group `#[\w./@-]+` with the leading
`#` removed by `slice(1)`, falling back to `"main"` when the group is
unmatched.  Both optional groups sit after the `repo` group and the regex has
no end anchor, so greedy left-to-right matching without backtracking is
exact. -/
def parseGitURI (input : String) : GitInfo :=
  match matchRepo input.toList with
  | none => { repo := none, subdir := "/", ref := "main" }
  | some (repoCs, rest) =>
    let sub := rest.takeWhile (fun c => !(c = '#'))
    let rest2 := rest.dropWhile (fun c => !(c = '#'))
    let refGroup : Option (List Char) :=
      match rest2 with
      | '#' :: rest3 =>
        let r := rest3.takeWhile isRefChar
        if r.isEmpty then none else some r
      | _ => none
    { repo := some (String.mk repoCs)
      subdir := if sub.isEmpty then "/" else String.mk sub
      ref :=
        match refGroup with
        | some r => String.mk r
        | none => "main" }

/-! ### List and string helper lemmas -/

theorem takeWhile_all {α : Type} {p : α → Bool} :
    ∀ l : List α, (∀ c ∈ l, p c = true) → l.takeWhile p = l := by
  intro l h
  induction l with
  | nil => rfl
  | cons a t ih =>
    have ha : p a = true := h a (by simp)
    rw [List.takeWhile_cons, if_pos ha, ih (fun c hc => h c (by simp [hc]))]

theorem dropWhile_all {α : Type} {p : α → Bool} :
    ∀ l : List α, (∀ c ∈ l, p c = true) → l.dropWhile p = [] := by
  intro l h
  induction l with
  | nil => rfl
  | cons a t ih =>
    have ha : p a = true := h a (by simp)
    rw [List.dropWhile_cons_of_pos ha, ih (fun c hc => h c (by simp [hc]))]

theorem takeWhile_append_stop {α : Type} {p : α → Bool} :
    ∀ (l1 : List α) (b : α) (l2 : List α), (∀ c ∈ l1, p c = true) → p b = false →
      (l1 ++ b :: l2).takeWhile p = l1 := by
  intro l1 b l2 h hb
  induction l1 with
  | nil => simp [List.takeWhile, hb]
  | cons a t ih =>
    have ha : p a = true := h a (by simp)
    rw [List.cons_append, List.takeWhile_cons, if_pos ha,
      ih (fun c hc => h c (by simp [hc]))]

theorem dropWhile_append_stop {α : Type} {p : α → Bool} :
    ∀ (l1 : List α) (b : α) (l2 : List α), (∀ c ∈ l1, p c = true) → p b = false →
      (l1 ++ b :: l2).dropWhile p = b :: l2 := by
  intro l1 b l2 h hb
  induction l1 with
  | nil => simp [List.dropWhile, hb]
  | cons a t ih =>
    have ha : p a = true := h a (by simp)
    rw [List.cons_append, List.dropWhile_cons_of_pos ha,
      ih (fun c hc => h c (by simp [hc]))]

theorem isEmpty_false_of_ne_nil {α : Type} {l : List α} (h : l ≠ []) :
    l.isEmpty = false := by
  cases l with
  | nil => exact absurd rfl h
  | cons a t => rfl

theorem toList_append (s t : String) : (s ++ t).toList = s.toList ++ t.toList := by
  cases s
  cases t
  rfl

theorem mk_toList (s : String) : String.mk s.toList = s := by
  cases s
  rfl

/-! ### Claims C6 and C7: behaviour of `parseGitURI` -/

theorem matchRepo_two_segments (owner repo : String) (tail : List Char)
    (h1 : owner.toList ≠ []) (h2 : ∀ c ∈ owner.toList, isWordDotDash c = true)
    (h3 : repo.toList ≠ []) (h4 : ∀ c ∈ repo.toList, isWordDotDash c = true)
    (htail : ∀ c, tail.head? = some c → isWordDotDash c = false) :
    matchRepo (owner.toList ++ '/' :: (repo.toList ++ tail)) =
      some (owner.toList ++ '/' :: repo.toList, tail.dropWhile isWordDotDash) := by
  have hslash : isWordDotDash '/' = false := by decide
  have hdrop : (owner.toList ++ '/' :: (repo.toList ++ tail)).dropWhile isWordDotDash =
      '/' :: (repo.toList ++ tail) :=
    dropWhile_append_stop _ _ _ h2 hslash
  have htake : (owner.toList ++ '/' :: (repo.toList ++ tail)).takeWhile isWordDotDash =
      owner.toList :=
    takeWhile_append_stop _ _ _ h2 hslash
  have htake2 : (repo.toList ++ tail).takeWhile isWordDotDash = repo.toList := by
    cases tail with
    | nil => simpa using takeWhile_all repo.toList h4
    | cons b t =>
      exact takeWhile_append_stop _ _ _ h4 (htail b rfl)
  have hdrop2 : (repo.toList ++ tail).dropWhile isWordDotDash = tail.dropWhile isWordDotDash := by
    cases tail with
    | nil => simpa using dropWhile_all repo.toList h4
    | cons b t =>
      rw [dropWhile_append_stop _ _ _ h4 (htail b rfl), List.dropWhile_cons_of_neg]
      simp [htail b rfl]
  simp only [matchRepo, hdrop, htake, htake2, hdrop2,
    isEmpty_false_of_ne_nil h1, isEmpty_false_of_ne_nil h3]
  simp

/-- Claim C6: for every input of the form `owner/repo`, where both segments are
non-empty runs of word/dot/dash characters, `parseGitURI` returns the whole
input as `repo` with defaults `subdir = "/"` and `ref = "main"`. -/
theorem parseGitURI_owner_repo (owner repo : String)
    (h1 : owner.toList ≠ []) (h2 : ∀ c ∈ owner.toList, isWordDotDash c = true)
    (h3 : repo.toList ≠ []) (h4 : ∀ c ∈ repo.toList, isWordDotDash c = true) :
    parseGitURI (owner ++ "/" ++ repo) =
      { repo := some (owner ++ "/" ++ repo), subdir := "/", ref := "main" } := by
  have hlist2 : (owner ++ "/" ++ repo).toList = owner.toList ++ '/' :: repo.toList := by
    rw [toList_append, toList_append]
    simp [show ("/" : String).toList = ['/'] from rfl]
  have hlist : (owner ++ "/" ++ repo).toList = owner.toList ++ '/' :: (repo.toList ++ []) := by
    rw [hlist2, List.append_nil]
  have hmr := matchRepo_two_segments owner repo [] h1 h2 h3 h4 (by intro c hc; cases hc)
  have hmk : String.mk (owner.toList ++ '/' :: repo.toList) = owner ++ "/" ++ repo := by
    rw [← hlist2, mk_toList]
  simp only [parseGitURI, hlist, hmr]
  simp
  exact hmk

theorem parseGitURI_owner_repo_witness :
    parseGitURI "org/repo" = { repo := some "org/repo", subdir := "/", ref := "main" } := by
  have h := parseGitURI_owner_repo "org" "repo" (by decide) (by decide) (by decide) (by decide)
  exact h

/-- Claim C7 (amended): for inputs `owner/repo#R`, the parsed `ref` is the whole
suffix `R` after the first `#` provided every character of `R` lies in the
regex class `[\w./@-]` (word characters, dot, slash, at-sign, dash); this
covers in particular refs containing `/`, `@`, `.` or `-`. -/
theorem parseGitURI_hash_ref (owner repo R : String)
    (h1 : owner.toList ≠ []) (h2 : ∀ c ∈ owner.toList, isWordDotDash c = true)
    (h3 : repo.toList ≠ []) (h4 : ∀ c ∈ repo.toList, isWordDotDash c = true)
    (h5 : R.toList ≠ []) (h6 : ∀ c ∈ R.toList, isRefChar c = true) :
    parseGitURI (owner ++ "/" ++ repo ++ "#" ++ R) =
      { repo := some (owner ++ "/" ++ repo), subdir := "/", ref := R } := by
  have hlist2 : (owner ++ "/" ++ repo).toList = owner.toList ++ '/' :: repo.toList := by
    rw [toList_append, toList_append]
    simp [show ("/" : String).toList = ['/'] from rfl]
  have hlist : (owner ++ "/" ++ repo ++ "#" ++ R).toList =
      owner.toList ++ '/' :: (repo.toList ++ ('#' :: R.toList)) := by
    rw [toList_append, toList_append, hlist2]
    simp [show ("#" : String).toList = ['#'] from rfl]
  have hmr := matchRepo_two_segments owner repo ('#' :: R.toList) h1 h2 h3 h4
    (by intro c hc; simp at hc; rw [← hc]; decide)
  have hmk : String.mk (owner.toList ++ '/' :: repo.toList) = owner ++ "/" ++ repo := by
    rw [← hlist2, mk_toList]
  have hdropHash : ('#' :: R.toList).dropWhile isWordDotDash = '#' :: R.toList := by
    rw [List.dropWhile_cons_of_neg]
    decide
  have hsub : ('#' :: R.toList).takeWhile (fun c => !(c = '#')) = [] := by
    rw [List.takeWhile_cons]
    simp
  have hsubdrop : ('#' :: R.toList).dropWhile (fun c => !(c = '#')) = '#' :: R.toList := by
    rw [List.dropWhile_cons_of_neg]
    simp
  have htakeRef : R.toList.takeWhile isRefChar = R.toList := takeWhile_all R.toList h6
  simp only [parseGitURI, hlist, hmr, hdropHash, hsub, hsubdrop, htakeRef,
    isEmpty_false_of_ne_nil h5, List.isEmpty_nil]
  simp [mk_toList]
  exact hmk

theorem parseGitURI_hash_ref_witness :
    parseGitURI "org/repo#ref/ABC-123" =
      { repo := some "org/repo", subdir := "/", ref := "ref/ABC-123" } := by
  have h := parseGitURI_hash_ref "org" "repo" "ref/ABC-123"
    (by decide) (by decide) (by decide) (by decide) (by decide) (by decide)
  exact h

/-- Claim C7 counterexample: the input `org/repo#+x` has the form `owner/repo#R`
with `R = "+x"` non-empty, yet the parsed `ref` is not `R`: the character `+`
is outside the `ref` group's class `[\w./@-]`, so the group fails to match and
`ref` falls back to `"main"`. -/
theorem parseGitURI_hash_ref_counterexample :
    (parseGitURI "org/repo#+x").ref = "main" ∧ (parseGitURI "org/repo#+x").ref ≠ "+x" := by
  decide

/-! ## Filesystem model

An association list from absolute path strings to nodes; `FS.set` conses a
new binding, `FS.lookup` takes the most recent one.  File contents are either
raw bytes (the tarball) or the downloader's sidecar metadata object
(`JSON.stringify({etag?})`). -/

/-- Content of a regular file in the model. -/
inductive FileContent
  | bytes (b : List Nat)
  | meta (etag : Option String)
deriving Repr, DecidableEq

/-- A filesystem node: a regular file or a directory. -/
inductive FsNode
  | file (c : FileContent)
  | dir
deriving Repr, DecidableEq

/-- The filesystem: newest bindings first. -/
abbrev FS := List (String × FsNode)

def FS.lookup : FS → String → Option FsNode
  | [], _ => none
  | (q, n) :: rest, p => if p = q then some n else FS.lookup rest p

def FS.existsAt (fs : FS) (p : String) : Bool :=
  (FS.lookup fs p).isSome

def FS.set (fs : FS) (p : String) (n : FsNode) : FS :=
  (p, n) :: fs

/-- Models `ensureDir` from `@std/fs`: create the directory if absent.
(Creation of intermediate parent directories is elided; no claim depends on
parent entries.) -/
def FS.ensureDir (fs : FS) (p : String) : FS :=
  if fs.existsAt p then fs else fs.set p .dir

/-- Models `Deno.remove(path, { recursive: true })`: removes the node and the
whole subtree below it; rejects (throws `NotFound`) when the path does not
exist. -/
def FS.removeRecursive (fs : FS) (p : String) : Except String FS :=
  if fs.existsAt p then
    .ok (fs.filter (fun e => !(e.1 = p || (p ++ "/").toList.isPrefixOf e.1.toList)))
  else .error ("NotFound: " ++ p)

theorem FS.lookup_set_self (fs : FS) (p : String) (n : FsNode) :
    (fs.set p n).lookup p = some n := by
  simp [FS.set, FS.lookup]

theorem FS.lookup_set_ne (fs : FS) (p q : String) (n : FsNode) (h : q ≠ p) :
    (fs.set p n).lookup q = fs.lookup q := by
  simp [FS.set, FS.lookup, h]

theorem FS.lookup_ensureDir_ne (fs : FS) (p q : String) (h : q ≠ p) :
    (fs.ensureDir p).lookup q = fs.lookup q := by
  unfold FS.ensureDir
  split
  case isTrue => rfl
  case isFalse => exact FS.lookup_set_ne fs p q .dir h

/-! ## Network model

The downloader issues at most one `HEAD` and one `GET` per call; the oracle
fixes each response (either the JS `fetch` promise rejects, modelled `err`,
or a response object arrives).  The trace returned by `download` records the
requests actually issued. -/

/-- Outcome of one `sendFetch` call: the wrapped `fetch` either throws
(`err msg`, already wrapped into `Failed to download {url}: {msg}` by the
caller in the model) or yields a response. -/
inductive FetchOutcome (α : Type)
  | ok (a : α)
  | err (msg : String)
deriving Repr, DecidableEq

/-- The `HEAD` response: `headers.get("etag")` yields `null` (`none`) or a
string. -/
structure HeadResp where
  etag : Option String
deriving Repr, DecidableEq

/-- The `GET` response: status, status text, and the streamed body bytes. -/
structure GetResp where
  status : Nat
  statusText : String
  body : List Nat
deriving Repr, DecidableEq

/-- The network oracle for a single `download` call. -/
structure Net where
  head : FetchOutcome HeadResp
  get : FetchOutcome GetResp
deriving Repr, DecidableEq

/-- A network request actually issued by a run. -/
inductive NetCall
  | head
  | get
deriving Repr, DecidableEq

/-- JS values relevant to the `info.etag === etag` comparison: `undefined`,
`null`, or a string.  `undefined === null` is `false` in JS. -/
inductive JsVal
  | undef
  | jsnull
  | str (s : String)
deriving Repr, DecidableEq

/-- JS strict equality `===` restricted to the values above. -/
def jsEq : JsVal → JsVal → Bool
  | .undef, .undef => true
  | .jsnull, .jsnull => true
  | .str s, .str t => s = t
  | _, _ => false

/-! ## Cache-aware downloader (`download`, `src/lib/utils/index.ts`) -/

/-- Reading and JSON-parsing the sidecar `filePath + ".json"`; any failure
(missing file, non-JSON content) is caught and treated as `info = {}`, i.e.
no cached etag. -/
def readSidecar (fs : FS) (infoPath : String) : Option String :=
  match fs.lookup infoPath with
  | some (.file (.meta e)) => e
  | _ => none

/-- The JS value of `headResponse?.headers.get("etag")`: `undefined` when the
`HEAD` request failed (the rejection is caught and `headResponse` becomes
`undefined`), otherwise the header value (`null` or a string). -/
def headEtagJs (h : FetchOutcome HeadResp) : JsVal :=
  match h with
  | .err _ => .undef
  | .ok r =>
    match r.etag with
    | none => .jsnull
    | some s => .str s

/-- The JS value of `info.etag` after parsing the sidecar: `undefined` when
absent, a string otherwise. -/
def cachedEtagJs (o : Option String) : JsVal :=
  match o with
  | none => .undef
  | some s => .str s

/-- Shallow embedding of `download(url, filePath, options)` from
`src/lib/utils/index.ts`.  Headers only influence the oracle's responses and
are therefore not modelled explicitly.  Returns the outcome (`throw` or
normal return, with the updated filesystem) together with the trace of
network requests issued.  Faithful details: the early return happens when
`info.etag === etag && existsSync(filePath)`; a string etag from `HEAD`
replaces `info.etag` before the `GET`; a `GET` rejection or a status `>= 400`
throws before any file is opened; otherwise the file is opened with
`{ write: true, create: true }` — no truncation — so the body overwrites the
old bytes in place and any old trailing bytes survive; the sidecar is written
last. -/
def download (net : Net) (url filePath : String) (fs : FS) :
    (Except String FS) × List NetCall :=
  let infoPath := filePath ++ ".json"
  let cached := readSidecar fs infoPath
  let etag := headEtagJs net.head
  if jsEq (cachedEtagJs cached) etag && fs.existsAt filePath then
    (.ok fs, [.head])
  else
    let newEtag : Option String :=
      match etag with
      | .str s => some s
      | _ => cached
    match net.get with
    | .err m => (.error ("Failed to download " ++ url ++ ": " ++ m), [.head, .get])
    | .ok r =>
      if 400 ≤ r.status then
        (.error ("Failed to download " ++ url ++ ": " ++ toString r.status ++ " " ++
          r.statusText), [.head, .get])
      else
        let old : List Nat :=
          match fs.lookup filePath with
          | some (.file (.bytes b)) => b
          | _ => []
        let fs1 := fs.set filePath (.file (.bytes (r.body ++ old.drop r.body.length)))
        let fs2 := fs1.set infoPath (.file (.meta newEtag))
        (.ok fs2, [.head, .get])

/-- Claim C2: when the `HEAD` etag equals the sidecar's cached etag and the
target file already exists, `download` returns immediately: no `GET` is
issued (the trace is exactly `[head]`) and the filesystem — in particular the
tarball and the sidecar — is returned unchanged. -/
theorem download_cached_skip (net : Net) (url filePath : String) (fs : FS) (e : String)
    (hhead : net.head = .ok ⟨some e⟩)
    (hside : readSidecar fs (filePath ++ ".json") = some e)
    (hfile : fs.existsAt filePath = true) :
    download net url filePath fs = (.ok fs, [.head]) := by
  simp [download, headEtagJs, cachedEtagJs, jsEq, hhead, hside, hfile]

theorem download_cached_skip_witness :
    download ⟨.ok ⟨some "W"⟩, .err "offline"⟩ "u" "f"
      [("f", .file (.bytes [1])), ("f.json", .file (.meta (some "W")))] =
      (.ok [("f", .file (.bytes [1])), ("f.json", .file (.meta (some "W")))], [.head]) :=
  download_cached_skip _ "u" "f" _ "W" rfl (by decide) (by decide)

/-- Claim C10: on a cache miss into an existing file, the destination is
opened with `{ write: true, create: true }` (no truncation), so the fetched
body is written at offset 0 and old trailing bytes survive: the resulting
tarball is `body ++ old.drop body.length`, which differs from the fetched
body whenever the pre-existing file was longer. -/
theorem download_no_truncate (net : Net) (url filePath : String) (fs : FS)
    (old body : List Nat) (st : Nat) (stx : String) (e : String)
    (hhead : net.head = .ok ⟨some e⟩)
    (hside : readSidecar fs (filePath ++ ".json") = none)
    (hfile : fs.lookup filePath = some (.file (.bytes old)))
    (hget : net.get = .ok ⟨st, stx, body⟩)
    (hst : st < 400)
    (hlen : body.length < old.length) :
    download net url filePath fs =
      (.ok ((fs.set filePath (.file (.bytes (body ++ old.drop body.length)))).set
        (filePath ++ ".json") (.file (.meta (some e)))), [.head, .get]) ∧
    body ++ old.drop body.length ≠ body ∧
    (body ++ old.drop body.length).drop body.length = old.drop body.length := by
  refine ⟨?_, ?_, ?_⟩
  · simp [download, headEtagJs, cachedEtagJs, jsEq, hhead, hside, hfile, hget,
      Nat.not_le.mpr hst]
  · intro hcontra
    have hc := congrArg List.length hcontra
    simp [List.length_append, List.length_drop] at hc
    omega
  · rw [List.drop_left]

theorem download_no_truncate_witness :
    download ⟨.ok ⟨some "E"⟩, .ok ⟨200, "OK", [9]⟩⟩ "u" "f" [("f", FsNode.file (.bytes [1, 2, 3]))] =
      (.ok ((FS.set [("f", FsNode.file (.bytes [1, 2, 3]))] "f"
          (.file (.bytes ([9] ++ [1, 2, 3].drop [9].length)))).set
        ("f" ++ ".json") (.file (.meta (some "E")))), [.head, .get]) ∧
    [9] ++ [1, 2, 3].drop [9].length ≠ [9] ∧
    ([9] ++ [1, 2, 3].drop [9].length).drop [9].length = [1, 2, 3].drop [9].length :=
  download_no_truncate _ "u" "f" _ [1, 2, 3] [9] 200 "OK" "E" rfl (by decide) (by decide)
    rfl (by decide) (by decide)

/-! ## Extractor (`onentry` rewrite in `downloadTemplate`, plus the tar
extraction step)

Archive entry paths are modelled as `List Char`.  `splitSlash` and
`joinSlash` are JS `String.prototype.split("/")` and `Array.prototype.join("/")`;
`arr.splice(1)` returns the removed tail, so
`entry.path.split("/").splice(1).join("/")` is `joinSlash (splitSlash p |>.drop 1)`. -/

/-- JS `s.split("/")`: `"" ↦ [""]`, separators delimit possibly-empty
segments. -/
def splitSlash : List Char → List (List Char)
  | [] => [[]]
  | c :: rest =>
    match splitSlash rest with
    | [] => [[]]
    | s :: ss => if c = '/' then [] :: s :: ss else (c :: s) :: ss

/-- JS `segments.join("/")`. -/
def joinSlash : List (List Char) → List Char
  | [] => []
  | [s] => s
  | s :: ss => s ++ '/' :: joinSlash ss

theorem splitSlash_ne_nil (cs : List Char) : splitSlash cs ≠ [] := by
  cases cs with
  | nil => simp [splitSlash]
  | cons c rest =>
    simp only [splitSlash]
    cases splitSlash rest with
    | nil => simp
    | cons s ss =>
      by_cases hc : c = '/' <;> simp [hc]

theorem joinSlash_splitSlash (cs : List Char) : joinSlash (splitSlash cs) = cs := by
  induction cs with
  | nil => rfl
  | cons c rest ih =>
    cases hs : splitSlash rest with
    | nil => exact absurd hs (splitSlash_ne_nil rest)
    | cons s ss =>
      rw [hs] at ih
      by_cases hc : c = '/'
      · subst hc
        have h1 : splitSlash ('/' :: rest) = [] :: s :: ss := by
          simp [splitSlash, hs]
        rw [h1]
        show [] ++ '/' :: joinSlash (s :: ss) = '/' :: rest
        rw [List.nil_append, ih]
      · have h1 : splitSlash (c :: rest) = (c :: s) :: ss := by
          simp [splitSlash, hs, hc]
        rw [h1]
        cases ss with
        | nil =>
          show c :: s = c :: rest
          rw [show joinSlash [s] = s from rfl] at ih
          rw [ih]
        | cons t ts =>
          show (c :: s) ++ '/' :: joinSlash (t :: ts) = c :: rest
          rw [List.cons_append,
            show s ++ '/' :: joinSlash (t :: ts) = joinSlash (s :: t :: ts) from rfl, ih]

theorem splitSlash_seg_append (seg rest : List Char) (hseg : '/' ∉ seg) :
    splitSlash (seg ++ '/' :: rest) =
      match splitSlash rest with
      | [] => [seg]
      | s :: ss => seg :: s :: ss := by
  induction seg with
  | nil =>
    simp only [List.nil_append, splitSlash]
    cases hs : splitSlash rest with
    | nil => exact absurd hs (splitSlash_ne_nil rest)
    | cons s ss => simp
  | cons c t ih =>
    have hc : c ≠ '/' := by
      intro h
      exact hseg (by simp [h])
    have ht : '/' ∉ t := fun h => hseg (by simp [h])
    have h2 := ih ht
    cases hs : splitSlash rest with
    | nil => exact absurd hs (splitSlash_ne_nil rest)
    | cons s ss =>
      rw [hs] at h2
      simp only [] at h2
      simp only [List.cons_append, splitSlash, hs]
      simp only [List.append_eq]
      rw [h2]
      simp [hc]

/-- Stripping the first path segment:
`entry.path.split("/").splice(1).join("/")`. -/
def stripFirstSeg (p : List Char) : List Char :=
  joinSlash ((splitSlash p).drop 1)

theorem stripFirstSeg_append (seg rest : List Char) (hseg : '/' ∉ seg) :
    stripFirstSeg (seg ++ '/' :: rest) = rest := by
  unfold stripFirstSeg
  rw [splitSlash_seg_append seg rest hseg]
  cases hs : splitSlash rest with
  | nil => exact absurd hs (splitSlash_ne_nil rest)
  | cons s ss =>
    have hj := joinSlash_splitSlash rest
    rw [hs] at hj
    simp only [hs]
    simpa using hj

/-- Shallow embedding of the `onentry` path rewrite of `downloadTemplate`:
strip the first path segment unconditionally; then, when a non-empty `subdir`
was requested, keep entries whose path starts with `subdir + "/"` — rewritten
by `entry.path.slice(subdir.length)`, i.e. dropping only `subdir.length`
characters — and rewrite every other entry to the empty path. -/
def entryRewrite (subdir : List Char) (p : List Char) : List Char :=
  let p1 := stripFirstSeg p
  if subdir = [] then p1
  else if (subdir ++ ['/']).isPrefixOf p1 then p1.drop subdir.length
  else []

/-- Claim C4 (amended): the first path segment is stripped unconditionally;
with a non-empty requested `subdir`, an entry whose remaining path is
`subdir ++ "/" ++ tail` is rewritten by dropping only the first
`subdir.length` characters — the prefix without its trailing slash — so the
result is `"/" ++ tail` (a leading slash survives); every entry whose
remaining path does not start with `subdir ++ "/"` is rewritten to the empty
path. -/
theorem entryRewrite_spec (seg rest subdir tail : List Char)
    (hseg : '/' ∉ seg) (hsub : subdir ≠ []) :
    entryRewrite [] (seg ++ '/' :: rest) = rest ∧
    entryRewrite subdir (seg ++ '/' :: (subdir ++ '/' :: tail)) = '/' :: tail ∧
    (¬ (subdir ++ ['/']) <+: rest → entryRewrite subdir (seg ++ '/' :: rest) = []) := by
  have h1 := stripFirstSeg_append seg rest hseg
  have h2 := stripFirstSeg_append seg (subdir ++ '/' :: tail) hseg
  refine ⟨?_, ?_, ?_⟩
  · simp [entryRewrite, h1]
  · have hpre : (subdir ++ ['/']).isPrefixOf (subdir ++ '/' :: tail) = true := by
      rw [List.isPrefixOf_iff_prefix]
      exact ⟨tail, by simp⟩
    have hdrop : (subdir ++ '/' :: tail).drop subdir.length = '/' :: tail :=
      List.drop_left subdir ('/' :: tail)
    simp [entryRewrite, h2, hsub, hpre, hdrop]
  · intro hnp
    have hpre : (subdir ++ ['/']).isPrefixOf rest = false := by
      rw [Bool.eq_false_iff]
      intro hx
      exact hnp (List.isPrefixOf_iff_prefix.mp hx)
    simp [entryRewrite, h1, hsub, hpre]

theorem entryRewrite_spec_witness :
    entryRewrite [] ("top".toList ++ '/' :: "b/f.txt".toList) = "b/f.txt".toList ∧
    entryRewrite "a".toList
      ("top".toList ++ '/' :: ("a".toList ++ '/' :: "f.txt".toList)) = '/' :: "f.txt".toList ∧
    (¬ ("a".toList ++ ['/']) <+: "b/f.txt".toList →
      entryRewrite "a".toList ("top".toList ++ '/' :: "b/f.txt".toList) = []) :=
  entryRewrite_spec "top".toList "b/f.txt".toList "a".toList "f.txt".toList
    (by decide) (by decide)

/-- Claim C4 counterexample: the archive entry `top/a/f` with requested
subdir `a` has remaining path `a/f`, which starts with `a/`; removing exactly
that prefix would give `f`, but the code's `slice(subdir.length)` yields
`/f`. -/
theorem entryRewrite_counterexample :
    entryRewrite "a".toList "top/a/f".toList = "/f".toList ∧
    entryRewrite "a".toList "top/a/f".toList ≠ "f".toList := by
  decide

/-- Modelled from the spec: the extraction step itself is performed by the
external `npm:tar` library (`extract` in the orchestrator), whose code is not
part of this repository.  Per the spec's extractor contract, an empty
rewritten path means "do not write", entries whose rewritten path contains a
parent-directory traversal segment (`..`) are rejected/ignored, and (with
path preservation off, the library default used here) leading slashes are
stripped before the path is joined to the destination.  Returns the path
written for an entry, or `none` when the entry is dropped. -/
def tarKeepPath (p : List Char) : Option (List Char) :=
  let q := p.dropWhile (fun c => c = '/')
  if q = [] then none
  else if ['.', '.'] ∈ splitSlash q then none
  else some q

/-- Destination paths actually written when extracting the archive entries
`paths` into `dest` after the `onentry` rewrite with the given `subdir`. -/
def tarWrites (dest subdir : List Char) (paths : List (List Char)) : List (List Char) :=
  paths.filterMap (fun p =>
    (tarKeepPath (entryRewrite subdir p)).map (fun q => dest ++ '/' :: q))

theorem head_dropWhile_slash_ne (cs : List Char) :
    ((cs.dropWhile (fun c => c = '/')).head? ≠ some '/') := by
  induction cs with
  | nil => simp
  | cons c rest ih =>
    by_cases hc : c = '/'
    · rw [List.dropWhile_cons_of_pos (by simp [hc])]
      exact ih
    · rw [List.dropWhile_cons_of_neg (by simp [hc])]
      simp [hc]

/-- Claim C5: no written entry escapes the destination: every path written by
the extraction step lives strictly below `dest`, is non-empty, does not begin
with a further slash, and contains no `..` path segment. -/
theorem tarWrites_no_escape (dest subdir : List Char) (paths : List (List Char))
    (p : List Char) (hp : p ∈ tarWrites dest subdir paths) :
    ∃ q, p = dest ++ '/' :: q ∧ q ≠ [] ∧ ['.', '.'] ∉ splitSlash q ∧
      q.head? ≠ some '/' := by
  simp only [tarWrites, List.mem_filterMap] at hp
  obtain ⟨a, -, ha⟩ := hp
  unfold tarKeepPath at ha
  by_cases h1 : (entryRewrite subdir a).dropWhile (fun c => c = '/') = []
  · simp [h1] at ha
  · by_cases h2 : ['.', '.'] ∈ splitSlash ((entryRewrite subdir a).dropWhile (fun c => c = '/'))
    · simp [h1, h2] at ha
    · simp only [h1, h2, if_neg, if_false, Option.map_some] at ha
      refine ⟨(entryRewrite subdir a).dropWhile (fun c => c = '/'), ?_, h1, h2,
        head_dropWhile_slash_ne _⟩
      simp [h1, h2] at ha
      exact ha.symm

theorem tarWrites_no_escape_witness :
    ("/d".toList ++ '/' :: "x/f".toList) ∈
      tarWrites "/d".toList [] ["top/x/f".toList] ∧
    ∃ q, ("/d".toList ++ '/' :: "x/f".toList) = "/d".toList ++ '/' :: q ∧ q ≠ [] ∧
      ['.', '.'] ∉ splitSlash q ∧ q.head? ≠ some '/' :=
  ⟨by decide, tarWrites_no_escape "/d".toList [] ["top/x/f".toList] _ (by decide)⟩

/-! ## Template info and the JSON-fetch path

`TemplateInfo` as it crosses the wire: `name` and `tar` are required by the
contract but a JSON response may omit them (or bind them to the empty
string), which JS treats as falsy — hence `Option String` with an explicit
truthiness test. -/

/-- The normalized template descriptor.  `headers` and provider-specific
extra fields only influence the network oracle and are not modelled. -/
structure Template where
  name : Option String
  tar : Option String
  version : Option String
  subdir : Option String
  url : Option String
  defaultDir : Option String
deriving Repr, DecidableEq

/-- JS truthiness of a possibly-absent string (`undefined` and `""` are
falsy). -/
def jsTruthy (o : Option String) : Bool :=
  match o with
  | none => false
  | some s => !(s = "")

/-- JS `a || b` for a possibly-absent string `a` and a string default `b`. -/
def jsOr (o : Option String) (d : String) : String :=
  match o with
  | none => d
  | some s => if s = "" then d else s

/-- A JSON response body for the template-info fetch. -/
structure JsonResp where
  status : Nat
  statusText : String
  info : Template
deriving Repr, DecidableEq

/-- Shallow embedding of `_httpJSON` from `src/lib/providers.ts`: `sendFetch`
with `validateStatus` (throws on a rejected fetch, and on status `>= 400`
with a `Failed to fetch` message), then the required-fields check
`if (!info.tar || !info.name)`. -/
def httpJSON (input : String) (fetched : FetchOutcome JsonResp) : Except String Template :=
  match fetched with
  | .err m => .error ("Failed to download " ++ input ++ ": " ++ m)
  | .ok r =>
    if 400 ≤ r.status then
      .error ("Failed to fetch " ++ input ++ ": " ++ toString r.status ++ " " ++ r.statusText)
    else if !jsTruthy r.info.tar || !jsTruthy r.info.name then
      .error ("Invalid template info from " ++ input ++ ". name or tar fields are missing!")
    else .ok r.info

/-- Shallow embedding of the provider produced by `registryProvider` (the
registry module): fetch `{endpoint}/{input}.json`, throw on status `>= 400`
with the registry's own message, then the same required-fields check as
`_httpJSON`. -/
def registryJSON (registryEndpoint input : String) (fetched : FetchOutcome JsonResp) :
    Except String Template :=
  let registryURL := registryEndpoint ++ "/" ++ input ++ ".json"
  match fetched with
  | .err m => .error ("Failed to download " ++ registryURL ++ ": " ++ m)
  | .ok r =>
    if 400 ≤ r.status then
      .error ("Failed to download " ++ input ++ " template info from " ++ registryURL ++
        ": " ++ toString r.status ++ " " ++ r.statusText)
    else if !jsTruthy r.info.tar || !jsTruthy r.info.name then
      .error ("Invalid template info from " ++ registryURL ++ ". name or tar fields are missing!")
    else .ok r.info

/-- Claim C8: both JSON-fetch paths — `_httpJSON` (HTTP provider) and the
registry provider — fail with the invalid-template-info error whenever the
response body lacks `tar` or `name`, and neither path ever modifies the
fetched info (so no default tarball URL is ever substituted). -/
theorem jsonFetch_requires_tar_and_name (registryEndpoint input : String) (r : JsonResp)
    (hst : r.status < 400)
    (hmiss : r.info.tar = none ∨ r.info.name = none) :
    httpJSON input (.ok r) =
      .error ("Invalid template info from " ++ input ++ ". name or tar fields are missing!") ∧
    registryJSON registryEndpoint input (.ok r) =
      .error ("Invalid template info from " ++
        (registryEndpoint ++ "/" ++ input ++ ".json") ++ ". name or tar fields are missing!") ∧
    (∀ s t, httpJSON s (.ok r) = .ok t → t = r.info) ∧
    (∀ s1 s2 t, registryJSON s1 s2 (.ok r) = .ok t → t = r.info) := by
  have hnot : ¬ 400 ≤ r.status := Nat.not_le.mpr hst
  have hchk : (!jsTruthy r.info.tar || !jsTruthy r.info.name) = true := by
    rcases hmiss with h | h <;> simp [jsTruthy, h]
  refine ⟨?_, ?_, ?_, ?_⟩
  · simp [httpJSON, hnot, hchk]
  · simp [registryJSON, hnot, hchk]
  · intro s t h
    simp only [httpJSON, hchk] at h
    split at h
    · exact absurd h (by simp)
    · exact absurd h (by simp)
  · intro s1 s2 t h
    simp only [registryJSON, hchk] at h
    split at h
    · exact absurd h (by simp)
    · exact absurd h (by simp)

/-- A registry/HTTP JSON body with `name` but no `tar`, as in the spec's
scenario for `themes:test`. -/
def sampleInfoNoTar : Template :=
  ⟨some "x", none, none, none, none, none⟩

theorem jsonFetch_requires_tar_and_name_witness :
    httpJSON "test" (.ok ⟨200, "OK", sampleInfoNoTar⟩) =
      .error ("Invalid template info from " ++ "test" ++
        ". name or tar fields are missing!") ∧
    registryJSON "E" "test" (.ok ⟨200, "OK", sampleInfoNoTar⟩) =
      .error ("Invalid template info from " ++ ("E" ++ "/" ++ "test" ++ ".json") ++
        ". name or tar fields are missing!") ∧
    (∀ s t, httpJSON s (.ok ⟨200, "OK", sampleInfoNoTar⟩) = .ok t → t = sampleInfoNoTar) ∧
    (∀ s1 s2 t, registryJSON s1 s2 (.ok ⟨200, "OK", sampleInfoNoTar⟩) = .ok t →
      t = sampleInfoNoTar) :=
  jsonFetch_requires_tar_and_name "E" "test" ⟨200, "OK", sampleInfoNoTar⟩
    (by decide) (Or.inl rfl)

/-! ## Orchestrator (`downloadTemplate`)

The orchestrator's own logic — provider-name/source splitting, sanitization,
cache-path computation, offline policy, cache fallback, tarball check,
destination conflict policy, extraction, and the result record — is embedded
below.  The chosen provider function itself, the network, the archive listing
of the cached tarball, the cache root (`cacheDirectory()`), and the process
working directory are oracle parameters. -/

/-- Whether a path string is absolute (starts with a slash). -/
def strStartsWithSlash (s : String) : Bool :=
  match s.toList with
  | '/' :: _ => true
  | _ => false

/-- Models `resolve` from `@std/path` for one step: an absolute segment
replaces the base, `"."` keeps it, anything else is joined.  Path
normalization of `.`/`..` inside segments is not modelled; no claim depends
on it. -/
def resolvePath (base p : String) : String :=
  if p = "." then base
  else if strStartsWithSlash p then p
  else base ++ "/" ++ p

/-- Models `dirname` from `@std/path`: everything before the last slash. -/
def dirname (p : String) : String :=
  String.mk (joinSlash ((splitSlash p.toList).dropLast))

/-- The regex `sourceProtoRe = /^([\w-.]+):/` applied to the input: the
leading maximal run of class characters followed by a literal `:`.  Returns
the provider name and the remainder after the colon.  As with `inputRegex`,
the class excludes `:` so greedy matching is exact. -/
def matchProto (input : String) : Option (String × String) :=
  let cs := input.toList
  let seg := cs.takeWhile isWordDotDash
  if seg.isEmpty then none
  else
    match cs.dropWhile isWordDotDash with
    | ':' :: r => some (String.mk seg, String.mk r)
    | _ => none

/-- The options record of `downloadTemplate` after the environment merge.
`registryEnabled` models `options.registry !== false` (a configured or
default registry); auth and headers only influence the oracle and are not
modelled. -/
structure DTOptions where
  provider : Option String
  force : Bool
  forceClean : Bool
  offline : Bool
  preferOffline : Bool
  dir : Option String
  registryEnabled : Bool
  cwd : Option String
deriving Repr, DecidableEq

/-- Outcome of calling the provider selected for this run (custom providers
map, then built-ins, then the registry provider): no provider found at all,
the provider threw, the provider returned `null`, or it resolved a
template. -/
inductive ProviderOutcome
  | missing
  | threw (msg : String)
  | resolvedNull
  | resolved (t : Template)
deriving Repr, DecidableEq

/-- Environment oracle for one `downloadTemplate` call. -/
structure DTEnv where
  providerOutcome : ProviderOutcome
  net : Net
  archive : List (List Char)
  cacheRoot : String
  procCwd : String
deriving Repr, DecidableEq

/-- The successful result `{ ...template, source, dir }`. -/
structure DTResult where
  template : Template
  source : String
  dir : String
deriving Repr, DecidableEq

/-- `template.name.replace(/[^\da-z-]/gi, "-")`: any character that is not a
digit, an ASCII letter (either case) or a dash becomes a dash. -/
def sanitizeChar (c : Char) : Char :=
  if c.isDigit || c.isLower || c.isUpper || c = '-' then c else '-'

/-- Sanitization applied by the orchestrator to `name` and `defaultDir`. -/
def sanitize (s : String) : String :=
  String.mk (s.toList.map sanitizeChar)

/-- Provider name and provider-local source per the dispatch logic: default
provider from `options.provider || (registry ? "registry" : "github")`, then
the `sourceProtoRe` match overrides the provider name and strips the prefix —
except for `http`/`https`, where the full original input is kept. -/
def dtProviderAndSource (input : String) (opts : DTOptions) : String × String :=
  let pn0 := jsOr opts.provider (if opts.registryEnabled then "registry" else "github")
  match matchProto input with
  | none => (pn0, input)
  | some (pn, rest) => (pn, if pn = "http" ∨ pn = "https" then input else rest)

/-- Sanitized `template.name` (default `"template"`). -/
def dtName (t0 : Template) : String :=
  sanitize (jsOr t0.name "template")

/-- Sanitized `template.defaultDir` (default: the already-sanitized name). -/
def dtDefaultDir (t0 : Template) : String :=
  sanitize (jsOr t0.defaultDir (dtName t0))

/-- The cache tarball path
`resolve(cacheDirectory(), providerName, template.name)` joined with
`(template.version || template.name) + ".tar.gz"`. -/
def dtTarPath (input : String) (opts : DTOptions) (env : DTEnv) (t0 : Template) : String :=
  resolvePath
    (resolvePath (resolvePath env.cacheRoot (dtProviderAndSource input opts).1) (dtName t0))
    (jsOr t0.version (dtName t0) ++ ".tar.gz")

/-- The extraction destination
`resolve(resolve(options.cwd || "."), options.dir || template.defaultDir)`. -/
def dtDest (opts : DTOptions) (env : DTEnv) (t0 : Template) : String :=
  resolvePath (resolvePath env.procCwd (jsOr opts.cwd ".")) (jsOr opts.dir (dtDefaultDir t0))

/-- `template.subdir?.replace(/^\//, "") || ""`: one leading slash stripped,
absent, and empty map to the empty string. -/
def subdirOf (o : Option String) : String :=
  match o with
  | none => ""
  | some s => if strStartsWithSlash s then String.mk s.toList.tail else s

/-- The extraction step: apply the tar write model to the archive entries and
write each kept path below the destination.  Entry bodies are irrelevant to
the claims and are modelled as empty files. -/
def extractTo (dest subdir : String) (paths : List (List Char)) (fs : FS) : FS :=
  (tarWrites dest.toList subdir.toList paths).foldl
    (fun acc p => acc.set (String.mk p) (.file (.bytes []))) fs

/-- The download phase of `downloadTemplate` (steps 5 of the spec): the
`preferOffline` promotion to offline, the `ensureDir(dirname(tarPath))`, the
`download` call, and the recoverable-by-cache catch that rethrows when no
cached tarball exists and otherwise switches the call to offline mode.
Returns the offline flag after the phase (`.ok`) or the propagated download
error, together with the filesystem and the request trace. -/
def dtDownloadPhase (input : String) (opts : DTOptions) (env : DTEnv) (t0 : Template)
    (fs : FS) : (Except String Bool) × FS × List NetCall :=
  let tarPath := dtTarPath input opts env t0
  if opts.offline || (opts.preferOffline && fs.existsAt tarPath) then (.ok true, fs, [])
  else
    let fsA := fs.ensureDir (dirname tarPath)
    match download env.net (jsOr t0.tar "") tarPath fsA with
    | (.ok fsB, cs) => (.ok false, fsB, cs)
    | (.error e, cs) =>
      if fsA.existsAt tarPath then (.ok true, fsA, cs)
      else (.error e, fsA, cs)

/-- The tail of `downloadTemplate` after the download phase: the tarball
existence check, `forceClean` removal, the destination conflict check,
`ensureDir`, extraction, and the result record. -/
def dtFinish (input : String) (opts : DTOptions) (env : DTEnv) (t0 : Template)
    (offline1 : Bool) (fs1 : FS) (calls : List NetCall) :
    (Except String DTResult) × FS × List NetCall :=
  let tarPath := dtTarPath input opts env t0
  if !(fs1.existsAt tarPath) then
    (.error ("Tarball not found: " ++ tarPath ++ " (offline: " ++ toString offline1 ++ ")"),
      fs1, calls)
  else
    let dest := dtDest opts env t0
    match (if opts.forceClean then fs1.removeRecursive dest else .ok fs1) with
    | .error e => (.error e, fs1, calls)
    | .ok fs2 =>
      if !opts.force && fs2.existsAt dest then
        (.error ("Destination " ++ dest ++ " already exists."), fs2, calls)
      else
        let fs3 := fs2.ensureDir dest
        let fs4 := extractTo dest (subdirOf t0.subdir) env.archive fs3
        (.ok { template :=
                 { t0 with name := some (dtName t0), defaultDir := some (dtDefaultDir t0) },
               source := (dtProviderAndSource input opts).2, dir := dest }, fs4, calls)

/-- Shallow embedding of `downloadTemplate(input, options)`: provider
dispatch and error wrapping, sanitization, then the download phase and the
finish phase above. -/
def downloadTemplate (input : String) (opts : DTOptions) (env : DTEnv) (fs : FS) :
    (Except String DTResult) × FS × List NetCall :=
  let providerName := (dtProviderAndSource input opts).1
  match env.providerOutcome with
  | .missing => (.error ("Unsupported provider: " ++ providerName), fs, [])
  | .threw m =>
    (.error ("Failed to download template from " ++ providerName ++ ": " ++ m), fs, [])
  | .resolvedNull => (.error ("Failed to resolve template from " ++ providerName), fs, [])
  | .resolved t0 =>
    match dtDownloadPhase input opts env t0 fs with
    | (.error e, fs1, calls) => (.error e, fs1, calls)
    | (.ok offline1, fs1, calls) => dtFinish input opts env t0 offline1 fs1 calls

/-! ### Write footprints of the download phase -/

theorem download_lookup_outside (net : Net) (url fp : String) (fs fs2 : FS)
    (cs : List NetCall) (h : download net url fp fs = (.ok fs2, cs)) :
    ∀ p, p ≠ fp → p ≠ fp ++ ".json" → fs2.lookup p = fs.lookup p := by
  intro p hp1 hp2
  simp only [download] at h
  split at h
  · simp only [Prod.mk.injEq, Except.ok.injEq] at h
    rw [← h.1]
  · split at h
    · simp at h
    · split at h
      · simp at h
      · simp only [Prod.mk.injEq, Except.ok.injEq] at h
        rw [← h.1, FS.lookup_set_ne _ _ _ _ hp2, FS.lookup_set_ne _ _ _ _ hp1]

theorem dtDownloadPhase_lookup_outside (input : String) (opts : DTOptions) (env : DTEnv)
    (t0 : Template) (fs : FS) (res : Except String Bool) (fs1 : FS) (calls : List NetCall)
    (h : dtDownloadPhase input opts env t0 fs = (res, fs1, calls)) :
    ∀ p, p ≠ dirname (dtTarPath input opts env t0) → p ≠ dtTarPath input opts env t0 →
      p ≠ dtTarPath input opts env t0 ++ ".json" → fs1.lookup p = fs.lookup p := by
  intro p hp0 hp1 hp2
  simp only [dtDownloadPhase] at h
  split at h
  · simp only [Prod.mk.injEq] at h
    rw [← h.2.1]
  · split at h
    case _ fsB cs2 heq =>
      simp only [Prod.mk.injEq] at h
      rw [← h.2.1, download_lookup_outside _ _ _ _ _ _ heq p hp1 hp2,
        FS.lookup_ensureDir_ne _ _ _ hp0]
    case _ e cs2 heq =>
      split at h <;>
      · simp only [Prod.mk.injEq] at h
        rw [← h.2.1, FS.lookup_ensureDir_ne _ _ _ hp0]

/-- Claim C1: whenever a `downloadTemplate` call reaches destination
resolution (the provider resolved and the download phase completed with a
tarball present at the cache path) and the resolved destination already
exists while neither `force` nor `forceClean` is set, the call fails with the
`Destination ... already exists.` conflict error, and the filesystem is left
exactly as the download phase left it — which differs from the initial state
only at the three cache paths (cache directory, tarball, sidecar), so the
destination and everything below it are neither deleted nor modified.  The
statement is universally quantified over the initial state, so it applies to
a second call into the same non-empty destination as well. -/
theorem downloadTemplate_destination_conflict (input : String) (opts : DTOptions)
    (env : DTEnv) (t0 : Template) (fs : FS) (b : Bool) (fs1 : FS) (calls : List NetCall)
    (hforce : opts.force = false) (hclean : opts.forceClean = false)
    (hprov : env.providerOutcome = .resolved t0)
    (hphase : dtDownloadPhase input opts env t0 fs = (.ok b, fs1, calls))
    (htar : fs1.existsAt (dtTarPath input opts env t0) = true)
    (hdest : fs1.existsAt (dtDest opts env t0) = true) :
    downloadTemplate input opts env fs =
      (.error ("Destination " ++ dtDest opts env t0 ++ " already exists."), fs1, calls) ∧
    ∀ p, p ≠ dirname (dtTarPath input opts env t0) → p ≠ dtTarPath input opts env t0 →
      p ≠ dtTarPath input opts env t0 ++ ".json" → fs1.lookup p = fs.lookup p := by
  constructor
  · simp only [downloadTemplate, hprov, hphase, dtFinish, htar, hclean, hforce, hdest]
    simp
    exact hdest
  · exact dtDownloadPhase_lookup_outside input opts env t0 fs (.ok b) fs1 calls hphase

/-- Concrete options for the conflict witness: neither `force` nor
`forceClean`, offline (the cache already holds the tarball). -/
def c1Opts : DTOptions :=
  { provider := none, force := false, forceClean := false, offline := true,
    preferOffline := false, dir := some "/out", registryEnabled := false, cwd := none }

/-- Concrete template for the conflict witness. -/
def c1T0 : Template :=
  ⟨some "t", some "T", none, none, none, none⟩

/-- Concrete environment for the conflict witness. -/
def c1Env : DTEnv :=
  { providerOutcome := .resolved c1T0, net := ⟨.err "down", .err "down"⟩,
    archive := [], cacheRoot := "/c", procCwd := "/w" }

/-- Concrete filesystem for the conflict witness: cached tarball present and
destination `/out` already existing. -/
def c1FS : FS :=
  [("/c/gh/t/t.tar.gz", .file (.bytes [])), ("/out", .dir)]

theorem downloadTemplate_destination_conflict_witness :
    downloadTemplate "gh:o/r" c1Opts c1Env c1FS =
      (.error ("Destination " ++ dtDest c1Opts c1Env c1T0 ++ " already exists."),
        c1FS, []) ∧
    ∀ p, p ≠ dirname (dtTarPath "gh:o/r" c1Opts c1Env c1T0) →
      p ≠ dtTarPath "gh:o/r" c1Opts c1Env c1T0 →
      p ≠ dtTarPath "gh:o/r" c1Opts c1Env c1T0 ++ ".json" →
      c1FS.lookup p = c1FS.lookup p :=
  downloadTemplate_destination_conflict "gh:o/r" c1Opts c1Env c1T0 c1FS true c1FS []
    rfl rfl rfl rfl (by decide) (by decide)

/-- Claim C3: when the download step of `downloadTemplate` throws, the error
is swallowed if a cached tarball already exists at the computed cache path —
the call switches to offline mode and continues with the cached tarball (it
runs the post-download tail `dtFinish` with the offline flag set) — and
propagates to the caller otherwise. -/
theorem downloadTemplate_cache_fallback (input : String) (opts : DTOptions) (env : DTEnv)
    (t0 : Template) (fs : FS) (e : String) (cs : List NetCall)
    (hprov : env.providerOutcome = .resolved t0)
    (hnotoff : (opts.offline ||
      (opts.preferOffline && fs.existsAt (dtTarPath input opts env t0))) = false)
    (hdl : download env.net (jsOr t0.tar "") (dtTarPath input opts env t0)
      (fs.ensureDir (dirname (dtTarPath input opts env t0))) = (.error e, cs)) :
    ((fs.ensureDir (dirname (dtTarPath input opts env t0))).existsAt
        (dtTarPath input opts env t0) = true →
      downloadTemplate input opts env fs =
        dtFinish input opts env t0 true
          (fs.ensureDir (dirname (dtTarPath input opts env t0))) cs) ∧
    ((fs.ensureDir (dirname (dtTarPath input opts env t0))).existsAt
        (dtTarPath input opts env t0) = false →
      downloadTemplate input opts env fs =
        (.error e, fs.ensureDir (dirname (dtTarPath input opts env t0)), cs)) := by
  constructor
  · intro hex
    simp only [downloadTemplate, hprov, dtDownloadPhase, hnotoff, hdl, hex]
    simp
  · intro hex
    simp only [downloadTemplate, hprov, dtDownloadPhase, hnotoff, hdl, hex]
    simp

/-- Concrete options for the cache-fallback witness: online, no force
flags. -/
def c3Opts : DTOptions :=
  { provider := none, force := false, forceClean := false, offline := false,
    preferOffline := false, dir := some "/out", registryEnabled := false, cwd := none }

/-- Concrete template for the cache-fallback witness. -/
def c3T0 : Template :=
  ⟨some "t", some "T", none, none, none, none⟩

/-- Concrete environment for the cache-fallback witness: the `HEAD` answers
with a fresh etag, the `GET` fails. -/
def c3Env : DTEnv :=
  { providerOutcome := .resolved c3T0, net := ⟨.ok ⟨some "B"⟩, .err "down"⟩,
    archive := [], cacheRoot := "/c", procCwd := "/w" }

/-- Concrete filesystem for the cache-fallback witness: a stale cached
tarball with sidecar etag `A`. -/
def c3FS : FS :=
  [("/c/gh/t/t.tar.gz", .file (.bytes [1])),
   ("/c/gh/t/t.tar.gz.json", .file (.meta (some "A")))]

theorem downloadTemplate_cache_fallback_witness :
    ((c3FS.ensureDir (dirname (dtTarPath "gh:o/r" c3Opts c3Env c3T0))).existsAt
        (dtTarPath "gh:o/r" c3Opts c3Env c3T0) = true →
      downloadTemplate "gh:o/r" c3Opts c3Env c3FS =
        dtFinish "gh:o/r" c3Opts c3Env c3T0 true
          (c3FS.ensureDir (dirname (dtTarPath "gh:o/r" c3Opts c3Env c3T0))) [.head, .get]) ∧
    ((c3FS.ensureDir (dirname (dtTarPath "gh:o/r" c3Opts c3Env c3T0))).existsAt
        (dtTarPath "gh:o/r" c3Opts c3Env c3T0) = false →
      downloadTemplate "gh:o/r" c3Opts c3Env c3FS =
        (.error "Failed to download T: down",
          c3FS.ensureDir (dirname (dtTarPath "gh:o/r" c3Opts c3Env c3T0)), [.head, .get])) :=
  downloadTemplate_cache_fallback "gh:o/r" c3Opts c3Env c3T0 c3FS
    "Failed to download T: down" [.head, .get] rfl rfl rfl

theorem dtFinish_ok_source (input : String) (opts : DTOptions) (env : DTEnv)
    (t0 : Template) (offline1 : Bool) (fs1 : FS) (calls : List NetCall)
    (r : DTResult) (fsOut : FS) (callsOut : List NetCall)
    (h : dtFinish input opts env t0 offline1 fs1 calls = (.ok r, fsOut, callsOut)) :
    r.source = (dtProviderAndSource input opts).2 := by
  simp only [dtFinish] at h
  split at h
  · simp at h
  · split at h
    · simp at h
    · split at h
      · simp at h
      · simp only [Prod.mk.injEq, Except.ok.injEq] at h
        rw [← h.1]

/-- Claim C9 (amended): for every input with a provider prefix
(`sourceProtoRe` matches, yielding provider `pn` and remainder `rest`), the
`source` field of a successful `downloadTemplate` result is the remainder
with the prefix stripped — except when the matched provider is `http` or
`https`, in which case `source` is the full original input, scheme
included. -/
theorem downloadTemplate_source_field (input : String) (opts : DTOptions) (env : DTEnv)
    (fs : FS) (pn rest : String) (r : DTResult) (fsOut : FS) (calls : List NetCall)
    (hm : matchProto input = some (pn, rest))
    (hok : downloadTemplate input opts env fs = (.ok r, fsOut, calls)) :
    r.source = if pn = "http" ∨ pn = "https" then input else rest := by
  have hsrc : (dtProviderAndSource input opts).2 =
      if pn = "http" ∨ pn = "https" then input else rest := by
    simp [dtProviderAndSource, hm]
  rw [← hsrc]
  simp only [downloadTemplate] at hok
  split at hok
  · simp at hok
  · simp at hok
  · simp at hok
  · split at hok
    · simp at hok
    · exact dtFinish_ok_source _ _ _ _ _ _ _ _ _ _ hok

/-- Concrete options for the source-field theorems: offline, extract to
`/out`. -/
def c9Opts : DTOptions :=
  { provider := none, force := false, forceClean := false, offline := true,
    preferOffline := false, dir := some "/out", registryEnabled := false, cwd := none }

/-- Concrete template for the source-field theorems. -/
def c9T0 : Template :=
  ⟨some "t", some "T", none, none, none, none⟩

/-- Concrete environment for the source-field witness (provider `gh`). -/
def c9Env : DTEnv :=
  { providerOutcome := .resolved c9T0, net := ⟨.err "down", .err "down"⟩,
    archive := [], cacheRoot := "/c", procCwd := "/w" }

/-- Concrete filesystem for the source-field witness: the `gh` cache tarball
exists, the destination does not. -/
def c9FS : FS :=
  [("/c/gh/t/t.tar.gz", .file (.bytes []))]

/-- The successful result of the witness run. -/
def c9R : DTResult :=
  { template := ⟨some "t", some "T", none, none, none, some "t"⟩,
    source := "o/r", dir := "/out" }

theorem downloadTemplate_source_field_witness :
    c9R.source = if "gh" = "http" ∨ "gh" = "https" then "gh:o/r" else "o/r" :=
  downloadTemplate_source_field "gh:o/r" c9Opts c9Env c9FS "gh" "o/r" c9R
    (("/out", .dir) :: c9FS) [] rfl rfl

/-- Concrete environment for the C9 counterexample (provider `https`). -/
def cx9Env : DTEnv :=
  { providerOutcome := .resolved c9T0, net := ⟨.err "down", .err "down"⟩,
    archive := [], cacheRoot := "/c", procCwd := "/w" }

/-- Concrete filesystem for the C9 counterexample: the `https` cache tarball
exists, the destination does not. -/
def cx9FS : FS :=
  [("/c/https/t/t.tar.gz", .file (.bytes []))]

/-- The successful result of the counterexample run. -/
def cx9R : DTResult :=
  { template := ⟨some "t", some "T", none, none, none, some "t"⟩,
    source := "https://x.com/a.tar.gz", dir := "/out" }

/-- Claim C9 counterexample: the input `https://x.com/a.tar.gz` begins with
the provider prefix `https:` (the `sourceProtoRe` match), yet the `source`
field of the successful result is the full original input, not the remainder
`//x.com/a.tar.gz` with the prefix stripped. -/
theorem downloadTemplate_source_counterexample :
    matchProto "https://x.com/a.tar.gz" = some ("https", "//x.com/a.tar.gz") ∧
    (downloadTemplate "https://x.com/a.tar.gz" c9Opts cx9Env cx9FS).1 = .ok cx9R ∧
    cx9R.source = "https://x.com/a.tar.gz" ∧
    cx9R.source ≠ "//x.com/a.tar.gz" := by
  refine ⟨rfl, rfl, rfl, by decide⟩
